import Mathlib

/-!
# Verification of the connect RPC core against its specification

This file gives a shallow embedding, in Lean 4, of the core server dispatch
and streaming-connection code of the connect RPC framework (handler.go,
buffer pool, typed envelopes, `receiveUnaryResponse`, and procedure-path
normalization), together with theorems settling the specification's claims
about that code.

Go strings are modelled as Lean `String` (lists of characters), Go maps of
headers as association lists, Go pointer/reference semantics (where a claim
depends on aliasing) via an explicit store of header cells, and Go's
`sync.Pool` as an explicit list of pooled values.
-/

namespace ConnectVerify

/-! ## Procedure path normalization (`extractProtoPath`)

Go's `strings.Split(url, "/")` splits on every `/` and never returns an
empty slice: `Split("", "/") = [""]`.  `splitOnSlash` mirrors that
behaviour on lists of characters. -/

def splitOnSlash : List Char → List (List Char)
  | [] => [[]]
  | c :: rest =>
    let r := splitOnSlash rest
    if c = '/' then [] :: r
    else
      match r with
      | [] => [[c]]
      | s :: ss => (c :: s) :: ss

/-- Core of `extractProtoPath` on character lists, mirroring the Go switch
on `len(segments)`: more than one segment takes the trailing two segments,
exactly one segment is prefixed with a slash, and the (unreachable) empty
case yields `/`. -/
def extractProtoPathCore (url : List Char) : List Char :=
  let segments := splitOnSlash url
  if 1 < segments.length then
    ('/' :: segments.getD (segments.length - 2) []) ++
      ('/' :: segments.getD (segments.length - 1) [])
  else if segments.length = 1 then
    '/' :: segments.getD 0 []
  else
    ['/']

/-- `extractProtoPath` returns the trailing portion of the URL's path:
the Go function `extractProtoPath(url string) string`. -/
def extractProtoPath (url : String) : String :=
  ⟨extractProtoPathCore url.toList⟩

/-! ## Buffer pool

`bytes.Buffer` is modelled as its readable contents plus the capacity of
the underlying slice (`Reset` empties the contents, keeping the capacity),
and `sync.Pool` as an explicit list of pooled buffers: `Get` pops the most
recently pooled buffer or, when the pool is empty, returns the result of
the pool's `New` function; `Put` pushes. -/

def initialBufferSize : Nat := 512

def maxRecycleBufferSize : Nat := 8 <<< 20

structure GoBuffer where
  data : List Nat
  cap : Nat
  deriving DecidableEq

def GoBuffer.Reset (b : GoBuffer) : GoBuffer := { b with data := [] }

structure bufferPool where
  items : List GoBuffer
  deriving DecidableEq

/-- The pool's `New` function: `bytes.NewBuffer(make([]byte, 0, initialBufferSize))`. -/
def bufferPool.New : GoBuffer := { data := [], cap := initialBufferSize }

/-- `bufferPool.Get`: when the pool is empty, `sync.Pool.Get` returns the
result of calling `New`. -/
def bufferPool.Get : bufferPool → GoBuffer × bufferPool
  | ⟨[]⟩ => (bufferPool.New, ⟨[]⟩)
  | ⟨b :: rest⟩ => (b, ⟨rest⟩)

/-- `bufferPool.Put`: drop over-large buffers, otherwise reset and pool. -/
def bufferPool.Put (buffer : GoBuffer) (b : bufferPool) : bufferPool :=
  if buffer.cap > maxRecycleBufferSize then b
  else ⟨buffer.Reset :: b.items⟩

/-- The pool invariant maintained by the code's use of the pool: pooled
buffers are reset and were originally allocated with capacity at least
`initialBufferSize` (a `bytes.Buffer` never shrinks its capacity). -/
def bufferPool.WellFormed (b : bufferPool) : Prop :=
  ∀ buf ∈ b.items, buf.data = [] ∧ initialBufferSize ≤ buf.cap

/-! ## Error values

Modelled from the spec: the framework's structured error type (`*Error`,
`NewError`, `errorf`, the `Code` taxonomy) and Go's `error` values live in
source files that were not provided; only their callers are.  Per the spec
(§7), a structured error carries a code from an enumerated taxonomy and a
message; per the source doc comments, errors returned by `Receive` "wrap
`io.EOF`" and are checked "using the standard library's `errors.Is`", so a
structured error exposes its cause to unwrapping. -/

inductive Code
  | canceled
  | unknown
  | internal
  | invalidArgument
  | deadlineExceeded
  | unimplemented
  | unavailable
  deriving DecidableEq

/-- Modelled from the spec: a Go error value is either the `io.EOF`
sentinel, a plain `errors.New` string, or a structured `*Error` wrapping a
cause together with a code (§7). -/
inductive GoErr
  | eof
  | errorString (msg : String)
  | connectError (code : Code) (cause : GoErr)
  deriving DecidableEq

/-- Modelled from the spec: `NewError(code, cause)` attaches a code to an
underlying error. -/
def NewError (code : Code) (cause : GoErr) : GoErr := .connectError code cause

/-- Modelled from the spec: `errors.Is(err, io.EOF)` — a structured error
unwraps to its cause, so the check follows the cause chain. -/
def GoErr.isEOF : GoErr → Bool
  | .eof => true
  | .errorString _ => false
  | .connectError _ cause => cause.isEOF

/-- The human-readable message of the underlying error. -/
def GoErr.message : GoErr → String
  | .eof => "EOF"
  | .errorString msg => msg
  | .connectError _ cause => cause.message

/-- The structured code of an error, when it is a structured error. -/
def GoErr.code? : GoErr → Option Code
  | .eof => none
  | .errorString _ => none
  | .connectError code _ => some code

/-! ## Headers and the header store

`http.Header` is a Go map, i.e. a mutable reference.  Claims about
aliasing ("the accessor returns the *same* map on every call, and
mutations through it are visible later") are modelled with an explicit
store of header cells: a header value is an association list, and a header
*reference* is an index into the store. -/

abbrev Header := List (String × List String)

structure HeaderStore where
  cells : List Header
  deriving DecidableEq

/-- `make(http.Header)`-style allocation: append a fresh cell, returning
its address. -/
def HeaderStore.alloc (st : HeaderStore) (h : Header) : Nat × HeaderStore :=
  (st.cells.length, ⟨st.cells ++ [h]⟩)

/-- Dereference a header address. -/
def HeaderStore.get (st : HeaderStore) (a : Nat) : Header :=
  st.cells.getD a []

/-- Mutate the header a reference points to. -/
def HeaderStore.set (st : HeaderStore) (a : Nat) (h : Header) : HeaderStore :=
  ⟨st.cells.set a h⟩

/-- An address is valid when it points into the store. -/
def HeaderStore.Valid (st : HeaderStore) (a : Nat) : Prop :=
  a < st.cells.length

/-! ## Spec, Peer, and the typed envelopes -/

def StreamTypeUnary : Nat := 0
def StreamTypeClient : Nat := 1
def StreamTypeServer : Nat := 2
def StreamTypeBidi : Nat := StreamTypeClient ||| StreamTypeServer

structure Spec where
  StreamType : Nat
  Procedure : String
  IsClient : Bool
  deriving DecidableEq, Inhabited

structure Peer where
  Addr : String
  deriving DecidableEq, Inhabited

/-- `Request[T]`: the message plus framework metadata.  The `header` field
is a nullable reference to a header cell (`nil` ↦ `none`). -/
structure Request (T : Type) where
  Msg : T
  spec : Spec
  peer : Peer
  header : Option Nat
  deriving DecidableEq

/-- `NewRequest` leaves the header nil, to be initialized lazily. -/
def NewRequest {T : Type} (message : T) : Request T :=
  { Msg := message, spec := default, peer := default, header := none }

/-- `Request.Header`: allocate an empty header map on first use, in place;
afterwards return the stored reference. -/
def Request.Header {T : Type} (r : Request T) (st : HeaderStore) :
    Nat × Request T × HeaderStore :=
  match r.header with
  | none =>
    let fresh := st.alloc []
    (fresh.1, { r with header := some fresh.1 }, fresh.2)
  | some a => (a, r, st)

/-- `Response[T]`: the message plus nullable references to a header cell
and a trailer cell. -/
structure Response (T : Type) where
  Msg : T
  header : Option Nat
  trailer : Option Nat
  deriving DecidableEq

/-- `NewResponse` leaves header and trailer nil, to be initialized lazily. -/
def NewResponse {T : Type} (message : T) : Response T :=
  { Msg := message, header := none, trailer := none }

/-- `Response.Header`: allocate an empty header map on first use, in
place; afterwards return the stored reference. -/
def Response.Header {T : Type} (r : Response T) (st : HeaderStore) :
    Nat × Response T × HeaderStore :=
  match r.header with
  | none =>
    let fresh := st.alloc []
    (fresh.1, { r with header := some fresh.1 }, fresh.2)
  | some a => (a, r, st)

/-- `Response.Trailer`: allocate an empty trailer map on first use, in
place; afterwards return the stored reference. -/
def Response.Trailer {T : Type} (r : Response T) (st : HeaderStore) :
    Nat × Response T × HeaderStore :=
  match r.trailer with
  | none =>
    let fresh := st.alloc []
    (fresh.1, { r with trailer := some fresh.1 }, fresh.2)
  | some a => (a, r, st)

/-! ## receiveUnaryResponse

A `StreamingClientConn` is modelled by the outcomes of the two `Receive`
calls `receiveUnaryResponse` performs on it, together with the header
references its `ResponseHeader`/`ResponseTrailer` accessors return. -/

structure StreamingClientConn (T : Type) where
  recv1 : Except GoErr T
  recv2 : Except GoErr T
  responseHeader : Nat
  responseTrailer : Nat

/-- `receiveUnaryResponse`: unmarshal one message, drain the stream with a
second `Receive`, then envelope the message with the connection's response
header and trailer. -/
def receiveUnaryResponse {T : Type} (conn : StreamingClientConn T) :
    Except GoErr (Response T) :=
  match conn.recv1 with
  | .error err => .error err
  | .ok msg =>
    match conn.recv2 with
    | .ok _ => .error (NewError .unknown (.errorString "unary stream has multiple messages"))
    | .error err =>
      if !err.isEOF then
        .error (NewError .unknown err)
      else
        .ok { Msg := msg,
              header := some conn.responseHeader,
              trailer := some conn.responseTrailer }

/-- The contract of a lazy header accessor `acc` with backing field
`field` on an envelope `v` in store `st`: the returned reference is valid;
if the stored field was nil, the call allocated a fresh empty map; the
updated envelope stores exactly the returned reference; a repeated call
returns the same reference, envelope and store unchanged; and a mutation
through the returned reference is visible, with later calls still
returning the same reference. -/
def LazyAccessorContract {E : Type} (acc : E → HeaderStore → Nat × E × HeaderStore)
    (field : E → Option Nat) (v : E) (st : HeaderStore) (hm : Header) : Prop :=
  (acc v st).2.2.Valid (acc v st).1 ∧
  (field v = none → (acc v st).2.2.get (acc v st).1 = []) ∧
  field (acc v st).2.1 = some (acc v st).1 ∧
  acc (acc v st).2.1 (acc v st).2.2 = ((acc v st).1, (acc v st).2.1, (acc v st).2.2) ∧
  ((acc v st).2.2.set (acc v st).1 hm).get (acc v st).1 = hm ∧
  acc (acc v st).2.1 ((acc v st).2.2.set (acc v st).1 hm)
    = ((acc v st).1, (acc v st).2.1, (acc v st).2.2.set (acc v st).1 hm)

/-! ## Contexts

A `context.Context` is modelled by the value its `Err()` method reports:
`none` for a live context, `some e` once cancelled.  Distinct context
values (the request's original context versus the adapter-derived one) are
distinguished by comparing whole `Context` records. -/

structure Context where
  err : Option GoErr
  deriving DecidableEq

/-! ## Content-type canonicalization and the Accept-Post value -/

/-- Lowercase every character before the first `;`, preserving the rest. -/
def lowerBeforeSemi : List Char → List Char
  | [] => []
  | c :: cs => if c = ';' then c :: cs else c.toLower :: lowerBeforeSemi cs

/-- Modelled from the spec: `canonicalizeContentType` is not among the
provided source files; per the spec it lowercases the media type's primary
type and subtype while preserving parameters as-is, so the part before the
first `;` is lowercased and the remainder kept verbatim. -/
def canonicalizeContentType (contentType : String) : String :=
  ⟨lowerBeforeSemi contentType.toList⟩

def insertSorted (s : String) : List String → List String
  | [] => [s]
  | t :: ts => if s ≤ t then s :: t :: ts else t :: insertSorted s ts

def sortStrings : List String → List String
  | [] => []
  | s :: ss => insertSorted s (sortStrings ss)

/-! ## Protocol adapters and the Handler -/

/-- The outcome of running the user's streaming implementation on a
stream: normal return, an error return, or a panic. -/
inductive ImplOutcome
  | normal
  | userError (e : GoErr)
  | panicked (msg : String)
  deriving DecidableEq

/-- Modelled from the spec: a panic inside the user implementation is
"translated by the adapter" (spec §8, Close-once) into a structured error
before it reaches the dispatcher's call site, so the call
`h.implementation(ctx, conn)` yields `nil` on normal return, the user's
error, or the translated panic error. -/
def runImplementation : ImplOutcome → Option GoErr
  | .normal => none
  | .userError e => some e
  | .panicked msg => some (NewError .internal (.errorString msg))

/-- A protocol adapter, as `ServeHTTP` observes it for one request: the
advertised content-type set, the triple returned by `SetTimeout` (derived
context, whether the cancel handle is non-nil, and the timeout-parse
error), and whether `NewConn` succeeds. -/
structure protocolHandler where
  contentTypes : List String
  setTimeoutCtx : Context
  setTimeoutCancel : Bool
  setTimeoutErr : Option GoErr
  newConnOk : Bool
  deriving DecidableEq

/-- Modelled from the spec: `sortedAcceptPostValue` is not among the
provided source files; per the spec the precomputed `Accept-Post` value
lists all supported media types of all adapters, deduplicated, in
lexicographic order ("in a stable sort order", "lists A,B,C sorted"),
comma-joined. -/
def sortedAcceptPostValue (handlers : List protocolHandler) : String :=
  String.intercalate ", " (sortStrings (handlers.flatMap (fun ph => ph.contentTypes)).dedup)

def MethodPost : String := "POST"

/-- The `Handler` struct: spec, generic streaming implementation, ordered
protocol adapters, and the precomputed `Accept-Post` value. -/
structure Handler where
  spec : Spec
  implementation : Context → ImplOutcome
  protocolHandlers : List protocolHandler
  acceptPost : String

/-- Handler assembly as done by the typed constructors (handler.go lines
78–83 and 295–300): the `acceptPost` field is precomputed from the
protocol handler list. -/
def newHandler (spec : Spec) (implementation : Context → ImplOutcome)
    (protocolHandlers : List protocolHandler) : Handler :=
  { spec := spec, implementation := implementation,
    protocolHandlers := protocolHandlers,
    acceptPost := sortedAcceptPostValue protocolHandlers }

/-- An inbound HTTP request, as `ServeHTTP` observes it. -/
structure HttpRequest where
  method : String
  protoMajor : Nat
  contentType : String
  ctx : Context
  deriving DecidableEq

/-- The observable effects of one `ServeHTTP` call: the status code
written directly (none when a stream took over the response), the `Allow`
and `Accept-Post` headers, the request's `Content-Type` header after the
call, the adapter selected, the context `NewConn`'s request carried (none
when `NewConn` was never reached), the number of cancel-handle calls, the
contexts the implementation was invoked with, and the arguments of the
`Close` calls in order. -/
structure ServeResult where
  status : Option Nat
  allowHeader : Option String
  acceptPostHeader : Option String
  finalContentType : String
  selected : Option protocolHandler
  newConnCtx : Option Context
  cancelCalls : Nat
  implCtxs : List Context
  closeErrs : List (Option GoErr)
  deriving DecidableEq

/-- `Handler.ServeHTTP`, shallowly embedded: the HTTP-version gate for
bidi handlers, the POST-only gate, content-type canonicalization and
first-match adapter selection, the `SetTimeout` error contract, stream
construction, and the single terminal `Close`. -/
def ServeHTTP (h : Handler) (request : HttpRequest) : ServeResult :=
  if h.spec.StreamType &&& StreamTypeBidi = StreamTypeBidi ∧ request.protoMajor < 2 then
    { status := some 505, allowHeader := none, acceptPostHeader := none,
      finalContentType := request.contentType, selected := none, newConnCtx := none,
      cancelCalls := 0, implCtxs := [], closeErrs := [] }
  else if request.method ≠ MethodPost then
    { status := some 405, allowHeader := some MethodPost, acceptPostHeader := none,
      finalContentType := request.contentType, selected := none, newConnCtx := none,
      cancelCalls := 0, implCtxs := [], closeErrs := [] }
  else
    let contentType := canonicalizeContentType request.contentType
    match h.protocolHandlers.find? (fun ph => ph.contentTypes.contains contentType) with
    | none =>
      { status := some 415, allowHeader := none, acceptPostHeader := some h.acceptPost,
        finalContentType := request.contentType, selected := none, newConnCtx := none,
        cancelCalls := 0, implCtxs := [], closeErrs := [] }
    | some protocolHandler =>
      let ctx := if protocolHandler.setTimeoutErr.isSome then request.ctx
                 else protocolHandler.setTimeoutCtx
      let cancelCalls := if protocolHandler.setTimeoutCancel then 1 else 0
      if protocolHandler.newConnOk then
        if protocolHandler.setTimeoutErr.isSome then
          { status := none, allowHeader := none, acceptPostHeader := none,
            finalContentType := contentType, selected := some protocolHandler,
            newConnCtx := some ctx, cancelCalls := cancelCalls,
            implCtxs := [], closeErrs := [protocolHandler.setTimeoutErr] }
        else
          { status := none, allowHeader := none, acceptPostHeader := none,
            finalContentType := contentType, selected := some protocolHandler,
            newConnCtx := some ctx, cancelCalls := cancelCalls,
            implCtxs := [ctx],
            closeErrs := [runImplementation (h.implementation ctx)] }
      else
        { status := none, allowHeader := none, acceptPostHeader := none,
          finalContentType := contentType, selected := some protocolHandler,
          newConnCtx := some ctx, cancelCalls := cancelCalls,
          implCtxs := [], closeErrs := [] }

/-! ## The untyped unary adapter (`NewUnaryHandler`)

Functions are instrumented with an event trace recording whether the user
function and a configured interceptor's wrapper actually ran. -/

/-- An `AnyRequest` presented to the untyped adapter: either the genuine
`*Request[Req]` envelope or an envelope of some other concrete type
(substituted by a misbehaving interceptor). -/
inductive AnyReq (Req : Type)
  | typed (r : Request Req)
  | other

inductive Ev
  | userRan
  | interceptorRan
  deriving DecidableEq

/-- The shape of an untyped unary function (`UnaryFunc`), instrumented
with an event trace. -/
def UnaryFn (Req Res : Type) : Type :=
  Context → AnyReq Req → (Except GoErr (Response Res)) × List Ev

/-- The untyped unary adapter built inside `NewUnaryHandler` (handler.go
lines 42–51): first the `ctx.Err()` check, then the defensive type
assertion (yielding an `Internal` error on mismatch), then the user's
unary function. -/
def untypedUnaryAdapter {Req Res : Type}
    (unary : Context → Request Req → Except GoErr (Response Res)) :
    UnaryFn Req Res :=
  fun ctx request =>
    match ctx.err with
    | some err => (.error err, [])
    | none =>
      match request with
      | .other =>
        (.error (NewError .internal (.errorString "unexpected handler request type")), [])
      | .typed typed => (unary ctx typed, [.userRan])

/-- Interceptor wiring in `NewUnaryHandler` (handler.go lines 52–55): when
an interceptor is configured, its `WrapUnary` wraps the untyped adapter. -/
def wrapIfConfigured {Req Res : Type}
    (interceptor : Option (UnaryFn Req Res → UnaryFn Req Res))
    (untyped : UnaryFn Req Res) : UnaryFn Req Res :=
  match interceptor with
  | some ic => ic untyped
  | none => untyped

/-- An interceptor whose `WrapUnary` records that its wrapper code ran and
then delegates to the wrapped function unchanged. -/
def markingInterceptor {Req Res : Type} : UnaryFn Req Res → UnaryFn Req Res :=
  fun next ctx request =>
    let out := next ctx request
    (out.1, .interceptorRan :: out.2)

/-! ## Concrete example adapters, handlers and requests, used as witness
and counterexample inputs -/

def constNormalImpl : Context → ImplOutcome := fun _ => ImplOutcome.normal

def phConnect : protocolHandler :=
  { contentTypes := ["application/json", "application/proto"],
    setTimeoutCtx := ⟨none⟩, setTimeoutCancel := true,
    setTimeoutErr := none, newConnOk := true }

def phGRPC : protocolHandler :=
  { contentTypes := ["application/grpc"],
    setTimeoutCtx := ⟨none⟩, setTimeoutCancel := false,
    setTimeoutErr := none, newConnOk := true }

def phTimeoutErr : protocolHandler :=
  { contentTypes := ["application/json"],
    setTimeoutCtx := ⟨none⟩, setTimeoutCancel := true,
    setTimeoutErr := some (.errorString "protocol timeout: -1ms"), newConnOk := true }

def exampleSpec : Spec :=
  { StreamType := StreamTypeUnary, Procedure := "/acme.Foo/Bar", IsClient := false }

def exampleHandler : Handler :=
  newHandler exampleSpec constNormalImpl [phConnect, phGRPC]

def exampleTimeoutHandler : Handler :=
  newHandler exampleSpec constNormalImpl [phTimeoutErr]

def examplePostRequest : HttpRequest :=
  { method := "POST", protoMajor := 2, contentType := "Application/JSON",
    ctx := ⟨none⟩ }

def exampleBidiHandler : Handler :=
  newHandler { StreamType := StreamTypeBidi, Procedure := "/acme.Foo/Bidi", IsClient := false }
    constNormalImpl [phConnect, phGRPC]

def exampleGetRequestHTTP1 : HttpRequest :=
  { method := "GET", protoMajor := 1, contentType := "application/json",
    ctx := ⟨none⟩ }

/-- A user unary function that succeeds, echoing the request message. -/
def constOkUnary : Context → Request Nat → Except GoErr (Response Nat) :=
  fun _ r => Except.ok (NewResponse r.Msg)

/-- A context that is already cancelled. -/
def cancelledCtx : Context := ⟨some (.errorString "context canceled")⟩

theorem splitOnSlash_ne_nil (cs : List Char) : splitOnSlash cs ≠ [] := by
  induction cs with
  | nil => simp [splitOnSlash]
  | cons c rest ih =>
    simp only [splitOnSlash]
    by_cases hc : c = '/'
    · simp [hc]
    · simp only [hc, if_false]
      cases h : splitOnSlash rest with
      | nil => exact absurd h ih
      | cons s ss => simp

theorem splitOnSlash_no_slash (cs : List Char) (h : '/' ∉ cs) :
    splitOnSlash cs = [cs] := by
  induction cs with
  | nil => rfl
  | cons c rest ih =>
    have hc : c ≠ '/' := fun hc => h (hc ▸ List.mem_cons_self c rest)
    have hrest : '/' ∉ rest := fun hm => h (List.mem_cons_of_mem c hm)
    simp only [splitOnSlash, hc, if_false, ih hrest]

theorem splitOnSlash_append (xs ys : List Char) :
    splitOnSlash (xs ++ '/' :: ys) = splitOnSlash xs ++ splitOnSlash ys := by
  induction xs with
  | nil => simp [splitOnSlash]
  | cons c rest ih =>
    by_cases hc : c = '/'
    · simp [List.cons_append, splitOnSlash, hc, ih]
    · cases h : splitOnSlash rest with
      | nil => exact absurd h (splitOnSlash_ne_nil rest)
      | cons s ss =>
        simp [List.cons_append, splitOnSlash, hc, ih, h]

theorem splitOnSlash_mem_no_slash (cs : List Char) :
    ∀ s ∈ splitOnSlash cs, '/' ∉ s := by
  induction cs with
  | nil =>
    intro s hs
    simp only [splitOnSlash, List.mem_singleton] at hs
    simp [hs]
  | cons c rest ih =>
    intro s hs
    simp only [splitOnSlash] at hs
    by_cases hc : c = '/'
    · simp only [hc, if_true] at hs
      rcases List.mem_cons.mp hs with h | h
      · simp [h]
      · exact ih s h
    · simp only [hc, if_false] at hs
      cases h : splitOnSlash rest with
      | nil => exact absurd h (splitOnSlash_ne_nil rest)
      | cons t ts =>
        rw [h] at hs
        rcases List.mem_cons.mp hs with h' | h'
        · subst h'
          intro hmem
          rcases List.mem_cons.mp hmem with h'' | h''
          · exact hc h''.symm
          · exact ih t (h ▸ List.mem_cons_self t ts) h''
        · exact ih s (h ▸ List.mem_cons_of_mem t h')

theorem extractProtoPathCore_no_slash (s : List Char) (h : '/' ∉ s) :
    extractProtoPathCore s = '/' :: s := by
  simp [extractProtoPathCore, splitOnSlash_no_slash s h]

theorem extractProtoPathCore_append (p a b : List Char)
    (ha : '/' ∉ a) (hb : '/' ∉ b) :
    extractProtoPathCore (p ++ '/' :: (a ++ '/' :: b)) = ('/' :: a) ++ ('/' :: b) := by
  have hsplit : splitOnSlash (p ++ '/' :: (a ++ '/' :: b)) = splitOnSlash p ++ [a, b] := by
    rw [splitOnSlash_append, splitOnSlash_append, splitOnSlash_no_slash a ha,
      splitOnSlash_no_slash b hb]
    rfl
  have hlen : (splitOnSlash p ++ [a, b]).length = (splitOnSlash p).length + 2 := by
    simp
  simp only [extractProtoPathCore, hsplit, hlen]
  have h1 : 1 < (splitOnSlash p).length + 2 := by omega
  rw [if_pos h1]
  have hga : (splitOnSlash p ++ [a, b]).getD ((splitOnSlash p).length + 2 - 2) [] = a := by
    rw [Nat.add_sub_cancel, List.getD_append_right _ _ _ _ (Nat.le_refl _), Nat.sub_self]
    rfl
  have hgb : (splitOnSlash p ++ [a, b]).getD ((splitOnSlash p).length + 2 - 1) [] = b := by
    have : (splitOnSlash p).length + 2 - 1 = (splitOnSlash p).length + 1 := by omega
    rw [this, List.getD_append_right _ _ _ _ (Nat.le_add_right _ _),
      Nat.add_sub_cancel_left]
    rfl
  rw [hga, hgb]

theorem extractProtoPathCore_two_segments (p b : List Char)
    (hp : '/' ∉ p) (hb : '/' ∉ b) :
    extractProtoPathCore (p ++ '/' :: b) = ('/' :: p) ++ ('/' :: b) := by
  have hsplit : splitOnSlash (p ++ '/' :: b) = [p, b] := by
    rw [splitOnSlash_append, splitOnSlash_no_slash p hp, splitOnSlash_no_slash b hb]
    rfl
  simp [extractProtoPathCore, hsplit]

/-- Splitting a slash-containing list at its *last* slash: the suffix is
slash-free. -/
theorem last_slash_split (cs : List Char) (h : '/' ∈ cs) :
    ∃ xs ys, cs = xs ++ '/' :: ys ∧ '/' ∉ ys := by
  induction cs with
  | nil => cases h
  | cons c rest ih =>
    by_cases hr : '/' ∈ rest
    · obtain ⟨xs, ys, h1, h2⟩ := ih hr
      exact ⟨c :: xs, ys, by simp [h1], h2⟩
    · have hc : c = '/' := by
        rcases List.mem_cons.mp h with h' | h'
        · exact h'.symm
        · exact absurd h' hr
      exact ⟨[], rest, by simp [hc], hr⟩

/-- Any input containing a slash normalizes to a path of the form
`/a/b` with `a` and `b` slash-free. -/
theorem extractProtoPathCore_shape (cs : List Char) (h : '/' ∈ cs) :
    ∃ a b, '/' ∉ a ∧ '/' ∉ b ∧
      extractProtoPathCore cs = ('/' :: a) ++ ('/' :: b) := by
  obtain ⟨xs, ys, hcs⟩ := List.append_of_mem h
  have hlen : 1 < (splitOnSlash cs).length := by
    rw [hcs, splitOnSlash_append, List.length_append]
    have hx := splitOnSlash_ne_nil xs
    have hy := splitOnSlash_ne_nil ys
    have hx' : 0 < (splitOnSlash xs).length := List.length_pos.mpr hx
    have hy' : 0 < (splitOnSlash ys).length := List.length_pos.mpr hy
    omega
  set segments := splitOnSlash cs with hseg
  refine ⟨segments.getD (segments.length - 2) [],
    segments.getD (segments.length - 1) [], ?_, ?_, ?_⟩
  · have hlt : segments.length - 2 < segments.length := by omega
    rw [List.getD_eq_getElem _ _ hlt]
    exact splitOnSlash_mem_no_slash cs _ (hseg ▸ List.getElem_mem hlt)
  · have hlt : segments.length - 1 < segments.length := by omega
    rw [List.getD_eq_getElem _ _ hlt]
    exact splitOnSlash_mem_no_slash cs _ (hseg ▸ List.getElem_mem hlt)
  · simp only [extractProtoPathCore, ← hseg, if_pos hlen]

/-- C5 (counterexample): `extractProtoPath` is not idempotent.  At the
claim's own example input `"Baz"` the first application yields `"/Baz"`,
but applying the function again yields `"//Baz"` (the slash-prefixed result
now has two segments, the first of which is empty), refuting
`extractProtoPath (extractProtoPath s) = extractProtoPath s` at `s = "Baz"`. -/
theorem extractProtoPath_not_idempotent_at_Baz :
    ¬ (extractProtoPath (extractProtoPath "Baz") = extractProtoPath "Baz") ∧
      extractProtoPath "Baz" = "/Baz" ∧ extractProtoPath "/Baz" = "//Baz" := by
  refine ⟨by decide, by decide, by decide⟩

/-- C5 (amended): `extractProtoPath` is idempotent on every input that
contains at least one slash, and the claim's four concrete examples hold
exactly as stated.  (On slash-free inputs — and hence on the outputs
`"/Baz"` and `"/"` of the third and fourth examples — a second application
prepends a further slash, so unrestricted idempotence fails.) -/
theorem extractProtoPath_idempotent_of_slash (s : String) (h : '/' ∈ s.toList) :
    extractProtoPath (extractProtoPath s) = extractProtoPath s ∧
      extractProtoPath "/foo.Bar/Baz" = "/foo.Bar/Baz" ∧
      extractProtoPath "http://host/foo.Bar/Baz" = "/foo.Bar/Baz" ∧
      extractProtoPath "Baz" = "/Baz" ∧
      extractProtoPath "" = "/" := by
  refine ⟨?_, by decide, by decide, by decide, by decide⟩
  obtain ⟨a, b, ha, hb, hcore⟩ := extractProtoPathCore_shape s.toList h
  have h2 : extractProtoPathCore (('/' :: a) ++ ('/' :: b)) = ('/' :: a) ++ ('/' :: b) := by
    have h3 := extractProtoPathCore_append [] a b ha hb
    simpa using h3
  apply String.ext
  show extractProtoPathCore (String.mk (extractProtoPathCore s.toList)).toList
      = extractProtoPathCore s.toList
  rw [hcore]
  exact h2

/-- Witness for the amended C5 theorem at the concrete input `"a/b"`. -/
theorem extractProtoPath_idempotent_of_slash_witness :
    '/' ∈ ("a/b" : String).toList ∧
      (extractProtoPath (extractProtoPath "a/b") = extractProtoPath "a/b" ∧
        extractProtoPath "/foo.Bar/Baz" = "/foo.Bar/Baz" ∧
        extractProtoPath "http://host/foo.Bar/Baz" = "/foo.Bar/Baz" ∧
        extractProtoPath "Baz" = "/Baz" ∧
        extractProtoPath "" = "/") :=
  ⟨by decide, extractProtoPath_idempotent_of_slash "a/b" (by decide)⟩

/-- C6 (counterexample): `extractProtoPath` keeps *empty* trailing
segments.  On the input `"a/b/"`, whose trailing two non-empty segments
are `a` and `b`, the claim predicts `"/a/b"`; the code instead returns
`"/b/"` (the literal trailing two segments, the last one empty). -/
theorem extractProtoPath_keeps_empty_segments :
    extractProtoPath "a/b/" = "/b/" ∧ ¬ (extractProtoPath "a/b/" = "/a/b") := by
  refine ⟨by decide, by decide⟩

/-- C6 (amended): on a slash-containing input, `extractProtoPath` returns
the trailing two segments of the slash-delimited path — whether or not
they are empty — prefixed with a slash; on a slash-free input (a single
segment, including the empty string) it returns the segment prefixed with
a slash.  The conjuncts cover, in order: any input with at least two
slashes (arbitrary prefix `p`, trailing segments `a`, `b`); any input
with exactly one slash (segments `q`, `b`); any slash-free input `s`; and
the completeness of this case split — every slash-containing string is of
one of the first two forms. -/
theorem extractProtoPath_trailing_two_segments (p q a b s t : String)
    (ha : '/' ∉ a.toList) (hb : '/' ∉ b.toList)
    (hq : '/' ∉ q.toList) (hs : '/' ∉ s.toList) :
    extractProtoPath (p ++ "/" ++ a ++ "/" ++ b) = "/" ++ a ++ "/" ++ b ∧
      extractProtoPath (q ++ "/" ++ b) = "/" ++ q ++ "/" ++ b ∧
      extractProtoPath s = "/" ++ s ∧
      ('/' ∈ t.toList →
        (∃ p' a' b', '/' ∉ a'.toList ∧ '/' ∉ b'.toList ∧
          t = p' ++ "/" ++ a' ++ "/" ++ b') ∨
        (∃ q' b', '/' ∉ q'.toList ∧ '/' ∉ b'.toList ∧ t = q' ++ "/" ++ b')) := by
  refine ⟨?_, ?_, ?_, ?_⟩
  · apply String.ext
    show extractProtoPathCore ((p ++ "/" ++ a ++ "/" ++ b).toList)
        = ("/" ++ a ++ "/" ++ b).toList
    have h1 : (p ++ "/" ++ a ++ "/" ++ b).toList
        = p.toList ++ '/' :: (a.toList ++ '/' :: b.toList) := by
      show (((p.toList ++ ['/']) ++ a.toList) ++ ['/']) ++ b.toList = _
      simp
    rw [h1, extractProtoPathCore_append _ _ _ ha hb]
    show ('/' :: a.toList) ++ ('/' :: b.toList)
        = ((['/'] ++ a.toList) ++ ['/']) ++ b.toList
    simp
  · apply String.ext
    show extractProtoPathCore ((q ++ "/" ++ b).toList) = ("/" ++ q ++ "/" ++ b).toList
    have h1 : (q ++ "/" ++ b).toList = q.toList ++ '/' :: b.toList := by
      show (q.toList ++ ['/']) ++ b.toList = _
      simp
    rw [h1, extractProtoPathCore_two_segments _ _ hq hb]
    show ('/' :: q.toList) ++ ('/' :: b.toList)
        = ((['/'] ++ q.toList) ++ ['/']) ++ b.toList
    simp
  · apply String.ext
    show extractProtoPathCore s.toList = ("/" ++ s).toList
    rw [extractProtoPathCore_no_slash s.toList hs]
    rfl
  · intro ht
    obtain ⟨xs, ys, hsplit, hys⟩ := last_slash_split t.toList ht
    by_cases hxs : '/' ∈ xs
    · left
      obtain ⟨qs, as, hsplit2, has⟩ := last_slash_split xs hxs
      refine ⟨⟨qs⟩, ⟨as⟩, ⟨ys⟩, has, hys, ?_⟩
      apply String.ext
      show t.toList = (((qs ++ ['/']) ++ as) ++ ['/']) ++ ys
      rw [hsplit, hsplit2]
      simp
    · right
      refine ⟨⟨xs⟩, ⟨ys⟩, hxs, hys, ?_⟩
      apply String.ext
      show t.toList = (xs ++ ['/']) ++ ys
      rw [hsplit]
      simp

/-- Witness for the amended C6 theorem at concrete inputs, including the
single-slash input `"foo.Bar/Baz"`. -/
theorem extractProtoPath_trailing_two_segments_witness :
    '/' ∉ ("foo.Bar" : String).toList ∧ '/' ∉ ("Baz" : String).toList ∧
      '/' ∉ ("Qux" : String).toList ∧
      (extractProtoPath ("http://host" ++ "/" ++ "foo.Bar" ++ "/" ++ "Baz")
          = "/" ++ "foo.Bar" ++ "/" ++ "Baz" ∧
        extractProtoPath ("foo.Bar" ++ "/" ++ "Baz") = "/" ++ "foo.Bar" ++ "/" ++ "Baz" ∧
        extractProtoPath "Qux" = "/" ++ "Qux" ∧
        ('/' ∈ ("foo.Bar/Baz" : String).toList →
          (∃ p' a' b', '/' ∉ a'.toList ∧ '/' ∉ b'.toList ∧
            ("foo.Bar/Baz" : String) = p' ++ "/" ++ a' ++ "/" ++ b') ∨
          (∃ q' b', '/' ∉ q'.toList ∧ '/' ∉ b'.toList ∧
            ("foo.Bar/Baz" : String) = q' ++ "/" ++ b'))) :=
  ⟨by decide, by decide, by decide,
    extractProtoPath_trailing_two_segments "http://host" "foo.Bar" "foo.Bar" "Baz"
      "Qux" "foo.Bar/Baz" (by decide) (by decide) (by decide) (by decide)⟩

/-- C9: a buffer whose capacity exceeds `maxRecycleBufferSize` (8 MiB) is
not returned to the pool by `Put` (so a subsequent `Get` never re-offers
it); a buffer within the threshold is reset to empty contents before being
recycled; and — for a pool into which only reset buffers of capacity at
least `initialBufferSize` have been recycled — every buffer returned by
`Get` has empty contents and capacity at least `initialBufferSize` (512),
with `Get` and `Put` preserving that pool invariant. -/
theorem bufferPool_recycling (b : GoBuffer) (p : bufferPool)
    (hwf : bufferPool.WellFormed p) (hb : initialBufferSize ≤ b.cap) :
    (maxRecycleBufferSize < b.cap →
      bufferPool.Put b p = p ∧
        bufferPool.Get (bufferPool.Put b p) = bufferPool.Get p) ∧
    (b.cap ≤ maxRecycleBufferSize →
      bufferPool.Put b p = ⟨b.Reset :: p.items⟩ ∧ b.Reset.data = []) ∧
    (bufferPool.Get p).1.data = [] ∧
    initialBufferSize ≤ (bufferPool.Get p).1.cap ∧
    bufferPool.WellFormed (bufferPool.Get p).2 ∧
    bufferPool.WellFormed (bufferPool.Put b p) := by
  obtain ⟨items⟩ := p
  refine ⟨?_, ?_, ?_, ?_, ?_, ?_⟩
  · intro hbig
    have hput : bufferPool.Put b ⟨items⟩ = ⟨items⟩ := by
      simp [bufferPool.Put, hbig]
    exact ⟨hput, by rw [hput]⟩
  · intro hsmall
    constructor
    · simp [bufferPool.Put, Nat.not_lt.mpr hsmall]
    · rfl
  · cases items with
    | nil => rfl
    | cons x rest => exact (hwf x (List.mem_cons_self x rest)).1
  · cases items with
    | nil => simp [bufferPool.Get, bufferPool.New, initialBufferSize]
    | cons x rest => exact (hwf x (List.mem_cons_self x rest)).2
  · cases items with
    | nil => intro buf hbuf; simp [bufferPool.Get] at hbuf
    | cons x rest =>
      intro buf hbuf
      exact hwf buf (List.mem_cons_of_mem x hbuf)
  · intro buf hbuf
    by_cases hbig : b.cap > maxRecycleBufferSize
    · simp only [bufferPool.Put, if_pos hbig] at hbuf
      exact hwf buf hbuf
    · simp only [bufferPool.Put, if_neg hbig] at hbuf
      rcases List.mem_cons.mp hbuf with h | h
      · exact h ▸ ⟨rfl, hb⟩
      · exact hwf buf h

/-- Witness for the C9 theorem: a well-formed singleton pool and a used
buffer of capacity 600. -/
theorem bufferPool_recycling_witness :
    bufferPool.WellFormed ⟨[GoBuffer.mk [] 512]⟩ ∧
      initialBufferSize ≤ (GoBuffer.mk [7, 8] 600).cap ∧
      ((maxRecycleBufferSize < (GoBuffer.mk [7, 8] 600).cap →
        bufferPool.Put (GoBuffer.mk [7, 8] 600) ⟨[GoBuffer.mk [] 512]⟩
            = ⟨[GoBuffer.mk [] 512]⟩ ∧
          bufferPool.Get (bufferPool.Put (GoBuffer.mk [7, 8] 600) ⟨[GoBuffer.mk [] 512]⟩)
            = bufferPool.Get ⟨[GoBuffer.mk [] 512]⟩) ∧
      ((GoBuffer.mk [7, 8] 600).cap ≤ maxRecycleBufferSize →
        bufferPool.Put (GoBuffer.mk [7, 8] 600) ⟨[GoBuffer.mk [] 512]⟩
            = ⟨(GoBuffer.mk [7, 8] 600).Reset :: [GoBuffer.mk [] 512]⟩ ∧
          (GoBuffer.mk [7, 8] 600).Reset.data = []) ∧
      (bufferPool.Get ⟨[GoBuffer.mk [] 512]⟩).1.data = [] ∧
      initialBufferSize ≤ (bufferPool.Get ⟨[GoBuffer.mk [] 512]⟩).1.cap ∧
      bufferPool.WellFormed (bufferPool.Get ⟨[GoBuffer.mk [] 512]⟩).2 ∧
      bufferPool.WellFormed
        (bufferPool.Put (GoBuffer.mk [7, 8] 600) ⟨[GoBuffer.mk [] 512]⟩)) := by
  have hwf : bufferPool.WellFormed ⟨[GoBuffer.mk [] 512]⟩ := by
    intro buf hbuf
    rcases List.mem_singleton.mp hbuf with h
    exact h ▸ ⟨rfl, by decide⟩
  exact ⟨hwf, by decide,
    bufferPool_recycling (GoBuffer.mk [7, 8] 600) ⟨[GoBuffer.mk [] 512]⟩ hwf (by decide)⟩

theorem HeaderStore.get_set_self (st : HeaderStore) (a : Nat) (h : st.Valid a)
    (hm : Header) : (st.set a hm).get a = hm := by
  rw [HeaderStore.get, HeaderStore.set, List.getD_eq_getElem _ _ (by simpa using h)]
  exact List.getElem_set_self (by simpa using h)

theorem HeaderStore.valid_set (st : HeaderStore) (a b : Nat) (hm : Header)
    (h : st.Valid b) : (st.set a hm).Valid b := by
  simpa [HeaderStore.Valid, HeaderStore.set] using h

theorem HeaderStore.get_alloc_self (st : HeaderStore) (hm : Header) :
    (st.alloc hm).2.get (st.alloc hm).1 = hm := by
  rw [HeaderStore.alloc, HeaderStore.get]
  rw [List.getD_append_right _ _ _ _ (Nat.le_refl _), Nat.sub_self]
  rfl

theorem HeaderStore.valid_alloc_self (st : HeaderStore) (hm : Header) :
    (st.alloc hm).2.Valid (st.alloc hm).1 := by
  simp [HeaderStore.alloc, HeaderStore.Valid]

/-- C7: on a `StreamingClientConn` whose first `Receive` succeeded with
message `m`, `receiveUnaryResponse` is determined by the second `Receive`:
a nil error yields a structured error with code `unknown` and message
"unary stream has multiple messages"; an error wrapping `io.EOF` yields a
`Response` carrying `m` together with the connection's response header and
response trailer; any other error is wrapped with code `unknown` and
returned. -/
theorem receiveUnaryResponse_second_receive {T : Type} (conn : StreamingClientConn T)
    (m m2 : T) (e : GoErr) (h1 : conn.recv1 = .ok m) :
    (conn.recv2 = .ok m2 →
      receiveUnaryResponse conn
          = .error (NewError .unknown (.errorString "unary stream has multiple messages")) ∧
        (NewError .unknown
          (.errorString "unary stream has multiple messages")).code? = some .unknown ∧
        (NewError .unknown
          (.errorString "unary stream has multiple messages")).message
            = "unary stream has multiple messages") ∧
    (conn.recv2 = .error e → e.isEOF = true →
      receiveUnaryResponse conn
          = .ok { Msg := m, header := some conn.responseHeader,
                  trailer := some conn.responseTrailer }) ∧
    (conn.recv2 = .error e → e.isEOF = false →
      receiveUnaryResponse conn = .error (NewError .unknown e) ∧
        (NewError .unknown e).code? = some .unknown) := by
  refine ⟨?_, ?_, ?_⟩
  · intro h2
    refine ⟨?_, rfl, rfl⟩
    simp [receiveUnaryResponse, h1, h2]
  · intro h2 he
    simp [receiveUnaryResponse, h1, h2, he]
  · intro h2 he
    refine ⟨?_, rfl⟩
    simp [receiveUnaryResponse, h1, h2, he]

/-- Witness for the C7 theorem: a connection whose first `Receive` yields
`7` and whose second `Receive` yields an error wrapping `io.EOF`. -/
theorem receiveUnaryResponse_second_receive_witness :
    (StreamingClientConn.mk (T := Nat) (.ok 7)
        (.error (GoErr.connectError .unknown .eof)) 3 4).recv1 = .ok 7 ∧
    (((StreamingClientConn.mk (T := Nat) (.ok 7)
          (.error (GoErr.connectError .unknown .eof)) 3 4).recv2 = .ok 9 →
        receiveUnaryResponse (StreamingClientConn.mk (T := Nat) (.ok 7)
            (.error (GoErr.connectError .unknown .eof)) 3 4)
            = .error (NewError .unknown
                (.errorString "unary stream has multiple messages")) ∧
          (NewError .unknown
            (.errorString "unary stream has multiple messages")).code? = some .unknown ∧
          (NewError .unknown
            (.errorString "unary stream has multiple messages")).message
              = "unary stream has multiple messages") ∧
      ((StreamingClientConn.mk (T := Nat) (.ok 7)
          (.error (GoErr.connectError .unknown .eof)) 3 4).recv2
            = .error (GoErr.connectError .unknown .eof) →
        (GoErr.connectError .unknown .eof).isEOF = true →
        receiveUnaryResponse (StreamingClientConn.mk (T := Nat) (.ok 7)
            (.error (GoErr.connectError .unknown .eof)) 3 4)
            = .ok { Msg := 7, header := some 3, trailer := some 4 }) ∧
      ((StreamingClientConn.mk (T := Nat) (.ok 7)
          (.error (GoErr.connectError .unknown .eof)) 3 4).recv2
            = .error (GoErr.connectError .unknown .eof) →
        (GoErr.connectError .unknown .eof).isEOF = false →
        receiveUnaryResponse (StreamingClientConn.mk (T := Nat) (.ok 7)
            (.error (GoErr.connectError .unknown .eof)) 3 4)
            = .error (NewError .unknown (GoErr.connectError .unknown .eof)) ∧
          (NewError .unknown (GoErr.connectError .unknown .eof)).code? = some .unknown)) :=
  ⟨rfl, receiveUnaryResponse_second_receive
      (StreamingClientConn.mk (T := Nat) (.ok 7)
        (.error (GoErr.connectError .unknown .eof)) 3 4) 7 9
      (GoErr.connectError .unknown .eof) rfl⟩

/-- Any accessor following the lazy-allocation pattern (`if field == nil,
allocate; return field`) satisfies `LazyAccessorContract`. -/
theorem lazy_accessor_contract {E : Type}
    (acc : E → HeaderStore → Nat × E × HeaderStore)
    (field : E → Option Nat) (upd : E → Nat → E)
    (hacc : ∀ v stx, acc v stx =
      match field v with
      | none => ((stx.alloc []).1, upd v (stx.alloc []).1, (stx.alloc []).2)
      | some a => (a, v, stx))
    (hupd : ∀ v a, field (upd v a) = some a)
    (v : E) (st : HeaderStore) (hm : Header)
    (hv : ∀ a, field v = some a → st.Valid a) :
    LazyAccessorContract acc field v st hm := by
  unfold LazyAccessorContract
  cases hf : field v with
  | none =>
    have h1 : acc v st = ((st.alloc []).1, upd v (st.alloc []).1, (st.alloc []).2) := by
      rw [hacc]; simp [hf]
    have hvalid : (st.alloc []).2.Valid (st.alloc []).1 :=
      HeaderStore.valid_alloc_self st []
    refine ⟨?_, ?_, ?_, ?_, ?_, ?_⟩ <;> rw [h1]
    · exact hvalid
    · intro
      exact HeaderStore.get_alloc_self st []
    · exact hupd v _
    · rw [hacc]; simp [hupd]
    · exact HeaderStore.get_set_self _ _ hvalid hm
    · rw [hacc]; simp [hupd]
  | some a =>
    have h1 : acc v st = (a, v, st) := by
      rw [hacc]; simp [hf]
    have hvalid : st.Valid a := hv a hf
    refine ⟨?_, ?_, ?_, ?_, ?_, ?_⟩ <;> rw [h1]
    · exact hvalid
    · intro h
      simp [hf] at h
    · exact hf
    · rw [hacc]; simp [hf]
    · exact HeaderStore.get_set_self st a hvalid hm
    · rw [hacc]; simp [hf]

/-- C10: `NewRequest` and `NewResponse` leave the header (and trailer)
references nil, and the accessors `Request.Header`, `Response.Header` and
`Response.Trailer` each satisfy the lazy-allocation contract: they never
return a nil map — the first call allocates an empty header cell and
stores its reference in place — every subsequent call returns that same
cell unchanged, and a mutation through the returned reference is visible
to all later calls. -/
theorem request_response_header_accessors {T : Type} (r : Request T) (s : Response T)
    (st st2 st3 : HeaderStore) (hm : Header) (x : T)
    (hr : ∀ a, r.header = some a → st.Valid a)
    (hsh : ∀ a, s.header = some a → st2.Valid a)
    (hst : ∀ a, s.trailer = some a → st3.Valid a) :
    ((NewRequest x : Request T).header = none ∧
      (NewResponse x : Response T).header = none ∧
      (NewResponse x : Response T).trailer = none) ∧
    LazyAccessorContract Request.Header (fun v => v.header) r st hm ∧
    LazyAccessorContract Response.Header (fun v => v.header) s st2 hm ∧
    LazyAccessorContract Response.Trailer (fun v => v.trailer) s st3 hm := by
  refine ⟨⟨rfl, rfl, rfl⟩, ?_, ?_, ?_⟩
  · exact lazy_accessor_contract Request.Header (fun v => v.header)
      (fun v a => { v with header := some a }) (fun v stx => rfl)
      (fun v a => rfl) r st hm hr
  · exact lazy_accessor_contract Response.Header (fun v => v.header)
      (fun v a => { v with header := some a }) (fun v stx => rfl)
      (fun v a => rfl) s st2 hm hsh
  · exact lazy_accessor_contract Response.Trailer (fun v => v.trailer)
      (fun v a => { v with trailer := some a }) (fun v stx => rfl)
      (fun v a => rfl) s st3 hm hst

/-- Witness for the C10 theorem: fresh envelopes over an empty store. -/
theorem request_response_header_accessors_witness :
    (∀ a, (NewRequest (5 : Nat)).header = some a → HeaderStore.Valid ⟨[]⟩ a) ∧
    (∀ a, (NewResponse (6 : Nat)).header = some a → HeaderStore.Valid ⟨[]⟩ a) ∧
    (∀ a, (NewResponse (6 : Nat)).trailer = some a → HeaderStore.Valid ⟨[]⟩ a) ∧
    (((NewRequest (0 : Nat) : Request Nat).header = none ∧
        (NewResponse (0 : Nat) : Response Nat).header = none ∧
        (NewResponse (0 : Nat) : Response Nat).trailer = none) ∧
      LazyAccessorContract Request.Header (fun v => v.header)
        (NewRequest (5 : Nat)) ⟨[]⟩ [("k", ["v"])] ∧
      LazyAccessorContract Response.Header (fun v => v.header)
        (NewResponse (6 : Nat)) ⟨[]⟩ [("k", ["v"])] ∧
      LazyAccessorContract Response.Trailer (fun v => v.trailer)
        (NewResponse (6 : Nat)) ⟨[]⟩ [("k", ["v"])]) :=
  ⟨fun a ha => by simp [NewRequest] at ha,
    fun a ha => by simp [NewResponse] at ha,
    fun a ha => by simp [NewResponse] at ha,
    request_response_header_accessors (NewRequest 5) (NewResponse 6)
      ⟨[]⟩ ⟨[]⟩ ⟨[]⟩ [("k", ["v"])] 0
      (fun a ha => by simp [NewRequest] at ha)
      (fun a ha => by simp [NewResponse] at ha)
      (fun a ha => by simp [NewResponse] at ha)⟩

theorem mem_insertSorted (s a : String) (l : List String) :
    a ∈ insertSorted s l ↔ a = s ∨ a ∈ l := by
  induction l with
  | nil => simp [insertSorted]
  | cons t ts ih =>
    by_cases h : s ≤ t
    · simp [insertSorted, h]
    · simp only [insertSorted, h, if_false, List.mem_cons, ih]
      tauto

theorem sorted_insertSorted (s : String) (l : List String)
    (h : l.Sorted (· ≤ ·)) : (insertSorted s l).Sorted (· ≤ ·) := by
  induction l with
  | nil => simp [insertSorted]
  | cons t ts ih =>
    rw [List.sorted_cons] at h
    by_cases hst : s ≤ t
    · rw [insertSorted, if_pos hst, List.sorted_cons]
      refine ⟨?_, List.sorted_cons.mpr h⟩
      intro b hb
      rcases List.mem_cons.mp hb with hb | hb
      · exact hb ▸ hst
      · exact le_trans hst (h.1 b hb)
    · rw [insertSorted, if_neg hst, List.sorted_cons]
      refine ⟨?_, ih h.2⟩
      intro b hb
      rcases (mem_insertSorted s b ts).mp hb with hb | hb
      · exact hb ▸ le_of_not_le hst
      · exact h.1 b hb

theorem sortStrings_sorted (l : List String) : (sortStrings l).Sorted (· ≤ ·) := by
  induction l with
  | nil => simp [sortStrings]
  | cons s ss ih => exact sorted_insertSorted s (sortStrings ss) ih

theorem mem_sortStrings (a : String) (l : List String) :
    a ∈ sortStrings l ↔ a ∈ l := by
  induction l with
  | nil => simp [sortStrings]
  | cons s ss ih =>
    rw [sortStrings, mem_insertSorted, ih, List.mem_cons]

theorem find?_eq_some_split {α : Type} (p : α → Bool) (l : List α) (a : α)
    (h : l.find? p = some a) :
    ∃ pre post, l = pre ++ a :: post ∧ ∀ x ∈ pre, p x = false := by
  induction l with
  | nil => simp [List.find?] at h
  | cons b bs ih =>
    by_cases hb : p b
    · rw [List.find?_cons_of_pos _ hb] at h
      exact ⟨[], bs, by simpa using (Option.some.inj h).symm ▸ rfl, by simp⟩
    · rw [List.find?_cons_of_neg _ (by simpa using hb)] at h
      obtain ⟨pre, post, hsplit, hpre⟩ := ih h
      refine ⟨b :: pre, post, by simp [hsplit], ?_⟩
      intro x hx
      rcases List.mem_cons.mp hx with hx | hx
      · exact hx ▸ (by simpa using hb)
      · exact hpre x hx

/-- C1: for every request that reaches stream construction (version and
method gates passed, an adapter selected), if the adapter's `NewConn`
succeeds then `ServeHTTP` invokes the stream's `Close` exactly once, with
the terminal status: the timeout-parse error when one was captured,
otherwise the outcome of the user implementation (`nil` on normal return,
the user's error, or the panic translated by the adapter into an error);
if `NewConn` refuses, `Close` is never invoked. -/
theorem serveHTTP_close_once (h : Handler) (req : HttpRequest) (ph : protocolHandler)
    (hbidi : ¬(h.spec.StreamType &&& StreamTypeBidi = StreamTypeBidi ∧ req.protoMajor < 2))
    (hpost : req.method = MethodPost)
    (hfind : h.protocolHandlers.find?
        (fun x => x.contentTypes.contains (canonicalizeContentType req.contentType))
      = some ph) :
    (ph.newConnOk = true →
      (ServeHTTP h req).closeErrs
          = [if ph.setTimeoutErr.isSome then ph.setTimeoutErr
             else runImplementation (h.implementation ph.setTimeoutCtx)] ∧
        (ServeHTTP h req).closeErrs.length = 1) ∧
    (ph.newConnOk = false → (ServeHTTP h req).closeErrs = []) := by
  have hnotne : ¬(req.method ≠ MethodPost) := by simp [hpost]
  constructor
  · intro hok
    by_cases hte : ph.setTimeoutErr.isSome
    · simp only [ServeHTTP, if_neg hbidi, if_neg hnotne, hfind]
      simp [hok, hte]
    · simp only [ServeHTTP, if_neg hbidi, if_neg hnotne, hfind]
      simp [hok, hte]
  · intro hok
    simp only [ServeHTTP, if_neg hbidi, if_neg hnotne, hfind]
    simp [hok]

/-- Witness for the C1 theorem: a unary handler with two adapters, a POST
request with content type `Application/JSON`. -/
theorem serveHTTP_close_once_witness :
    ¬(exampleHandler.spec.StreamType &&& StreamTypeBidi = StreamTypeBidi ∧
        examplePostRequest.protoMajor < 2) ∧
      examplePostRequest.method = MethodPost ∧
      exampleHandler.protocolHandlers.find?
          (fun x => x.contentTypes.contains
            (canonicalizeContentType examplePostRequest.contentType))
        = some phConnect ∧
      ((phConnect.newConnOk = true →
        (ServeHTTP exampleHandler examplePostRequest).closeErrs
            = [if phConnect.setTimeoutErr.isSome then phConnect.setTimeoutErr
               else runImplementation (exampleHandler.implementation phConnect.setTimeoutCtx)] ∧
          (ServeHTTP exampleHandler examplePostRequest).closeErrs.length = 1) ∧
      (phConnect.newConnOk = false →
        (ServeHTTP exampleHandler examplePostRequest).closeErrs = [])) :=
  ⟨by decide, rfl, by decide,
    serveHTTP_close_once exampleHandler examplePostRequest phConnect
      (by decide) rfl (by decide)⟩

/-- C2: when the selected adapter's `SetTimeout` reports a parse error,
`ServeHTTP` hands `NewConn` the request's original context rather than the
derived one, still invokes the returned cancel handle exactly when it is
non-nil, and — when `NewConn` succeeds — closes the stream with the
timeout-parse error without ever invoking the user implementation. -/
theorem serveHTTP_timeout_error_path (h : Handler) (req : HttpRequest)
    (ph : protocolHandler) (e : GoErr)
    (hbidi : ¬(h.spec.StreamType &&& StreamTypeBidi = StreamTypeBidi ∧ req.protoMajor < 2))
    (hpost : req.method = MethodPost)
    (hfind : h.protocolHandlers.find?
        (fun x => x.contentTypes.contains (canonicalizeContentType req.contentType))
      = some ph)
    (he : ph.setTimeoutErr = some e) :
    (ServeHTTP h req).newConnCtx = some req.ctx ∧
    (ServeHTTP h req).cancelCalls = (if ph.setTimeoutCancel then 1 else 0) ∧
    (ph.newConnOk = true →
      (ServeHTTP h req).closeErrs = [some e] ∧
        (ServeHTTP h req).implCtxs = []) := by
  have hnotne : ¬(req.method ≠ MethodPost) := by simp [hpost]
  have hte : ph.setTimeoutErr.isSome := by simp [he]
  refine ⟨?_, ?_, ?_⟩
  · by_cases hok : ph.newConnOk <;>
      · simp only [ServeHTTP, if_neg hbidi, if_neg hnotne, hfind]
        simp [hok, hte]
  · by_cases hok : ph.newConnOk <;>
      · simp only [ServeHTTP, if_neg hbidi, if_neg hnotne, hfind]
        simp [hok, hte]
  · intro hok
    simp only [ServeHTTP, if_neg hbidi, if_neg hnotne, hfind]
    simp [hok, hte, he]

/-- Witness for the C2 theorem: an adapter whose `SetTimeout` fails to
parse `-1ms`. -/
theorem serveHTTP_timeout_error_path_witness :
    ¬(exampleTimeoutHandler.spec.StreamType &&& StreamTypeBidi = StreamTypeBidi ∧
        examplePostRequest.protoMajor < 2) ∧
      examplePostRequest.method = MethodPost ∧
      exampleTimeoutHandler.protocolHandlers.find?
          (fun x => x.contentTypes.contains
            (canonicalizeContentType examplePostRequest.contentType))
        = some phTimeoutErr ∧
      phTimeoutErr.setTimeoutErr = some (.errorString "protocol timeout: -1ms") ∧
      ((ServeHTTP exampleTimeoutHandler examplePostRequest).newConnCtx
          = some examplePostRequest.ctx ∧
        (ServeHTTP exampleTimeoutHandler examplePostRequest).cancelCalls
          = (if phTimeoutErr.setTimeoutCancel then 1 else 0) ∧
        (phTimeoutErr.newConnOk = true →
          (ServeHTTP exampleTimeoutHandler examplePostRequest).closeErrs
              = [some (.errorString "protocol timeout: -1ms")] ∧
            (ServeHTTP exampleTimeoutHandler examplePostRequest).implCtxs = [])) :=
  ⟨by decide, rfl, by decide, rfl,
    serveHTTP_timeout_error_path exampleTimeoutHandler examplePostRequest
      phTimeoutErr (.errorString "protocol timeout: -1ms")
      (by decide) rfl (by decide) rfl⟩

/-- C3 (counterexample): the HTTP-version gate precedes the method gate,
so a GET request over HTTP/1.1 to a *bidi* handler is answered 505 with no
`Allow` header — not 405 — refuting "status 405 … regardless of the
handler's stream type and the request's HTTP protocol version". -/
theorem serveHTTP_bidi_get_http1_is_505 :
    (ServeHTTP exampleBidiHandler exampleGetRequestHTTP1).status = some 505 ∧
      (ServeHTTP exampleBidiHandler exampleGetRequestHTTP1).allowHeader = none ∧
      ¬((ServeHTTP exampleBidiHandler exampleGetRequestHTTP1).status = some 405) := by
  refine ⟨rfl, rfl, by decide⟩

/-- C3 (amended): for every handler and every non-POST request, *provided
the bidi HTTP-version gate does not fire first* (the handler is not bidi,
or the request's HTTP major version is at least 2), `ServeHTTP` responds
405 with `Allow: POST`, consuming no stream: no adapter is selected, no
`Close` happens and the implementation never runs. -/
theorem serveHTTP_method_gate (h : Handler) (req : HttpRequest)
    (hbidi : ¬(h.spec.StreamType &&& StreamTypeBidi = StreamTypeBidi ∧ req.protoMajor < 2))
    (hm : req.method ≠ MethodPost) :
    (ServeHTTP h req).status = some 405 ∧
      (ServeHTTP h req).allowHeader = some MethodPost ∧
      (ServeHTTP h req).selected = none ∧
      (ServeHTTP h req).closeErrs = [] ∧
      (ServeHTTP h req).implCtxs = [] := by
  refine ⟨?_, ?_, ?_, ?_, ?_⟩ <;> simp [ServeHTTP, hbidi, hm]

/-- Witness for the amended C3 theorem: a GET request over HTTP/1.1 to a
unary handler. -/
theorem serveHTTP_method_gate_witness :
    ¬(exampleHandler.spec.StreamType &&& StreamTypeBidi = StreamTypeBidi ∧
        exampleGetRequestHTTP1.protoMajor < 2) ∧
      exampleGetRequestHTTP1.method ≠ MethodPost ∧
      ((ServeHTTP exampleHandler exampleGetRequestHTTP1).status = some 405 ∧
        (ServeHTTP exampleHandler exampleGetRequestHTTP1).allowHeader = some MethodPost ∧
        (ServeHTTP exampleHandler exampleGetRequestHTTP1).selected = none ∧
        (ServeHTTP exampleHandler exampleGetRequestHTTP1).closeErrs = [] ∧
        (ServeHTTP exampleHandler exampleGetRequestHTTP1).implCtxs = []) :=
  ⟨by decide, by decide,
    serveHTTP_method_gate exampleHandler exampleGetRequestHTTP1 (by decide) (by decide)⟩

/-- C4: after the version and method gates, `ServeHTTP` canonicalizes the
request's Content-Type and selects the *first* adapter in the ordered list
whose advertised content-type set contains the canonical value, replacing
the request's Content-Type header by the canonical form before stream
construction; when no adapter matches, it responds 415 with `Accept-Post`
equal to the handler's precomputed value — which, for a handler assembled
by the constructors, is the comma-joined, lexicographically sorted,
deduplicated list of exactly the media types advertised by the adapters. -/
theorem serveHTTP_protocol_selection (h : Handler) (req : HttpRequest)
    (ph : protocolHandler) (spec0 : Spec) (impl0 : Context → ImplOutcome)
    (phs : List protocolHandler) (s : String)
    (hbidi : ¬(h.spec.StreamType &&& StreamTypeBidi = StreamTypeBidi ∧ req.protoMajor < 2))
    (hpost : req.method = MethodPost) :
    (h.protocolHandlers.find?
        (fun x => x.contentTypes.contains (canonicalizeContentType req.contentType))
      = some ph →
      (ServeHTTP h req).selected = some ph ∧
        ph.contentTypes.contains (canonicalizeContentType req.contentType) = true ∧
        (∃ pre post, h.protocolHandlers = pre ++ ph :: post ∧
          ∀ x ∈ pre,
            x.contentTypes.contains (canonicalizeContentType req.contentType) = false) ∧
        (ServeHTTP h req).finalContentType = canonicalizeContentType req.contentType) ∧
    (h.protocolHandlers.find?
        (fun x => x.contentTypes.contains (canonicalizeContentType req.contentType))
      = none →
      (ServeHTTP h req).status = some 415 ∧
        (ServeHTTP h req).acceptPostHeader = some h.acceptPost ∧
        (ServeHTTP h req).selected = none) ∧
    (newHandler spec0 impl0 phs).acceptPost
        = String.intercalate ", "
          (sortStrings (phs.flatMap (fun x => x.contentTypes)).dedup) ∧
    (sortStrings (phs.flatMap (fun x => x.contentTypes)).dedup).Sorted (· ≤ ·) ∧
    (s ∈ sortStrings (phs.flatMap (fun x => x.contentTypes)).dedup ↔
      ∃ x ∈ phs, s ∈ x.contentTypes) := by
  have hnotne : ¬(req.method ≠ MethodPost) := by simp [hpost]
  refine ⟨?_, ?_, rfl, sortStrings_sorted _, ?_⟩
  · intro hfind
    refine ⟨?_, by simpa using List.find?_some hfind,
      find?_eq_some_split _ _ _ hfind, ?_⟩
    · by_cases hok : ph.newConnOk <;> by_cases hte : ph.setTimeoutErr.isSome <;>
        · simp only [ServeHTTP, if_neg hbidi, if_neg hnotne, hfind]
          simp [hok, hte]
    · by_cases hok : ph.newConnOk <;> by_cases hte : ph.setTimeoutErr.isSome <;>
        · simp only [ServeHTTP, if_neg hbidi, if_neg hnotne, hfind]
          simp [hok, hte]
  · intro hfind
    refine ⟨?_, ?_, ?_⟩ <;>
      · simp only [ServeHTTP, if_neg hbidi, if_neg hnotne, hfind]
  · rw [mem_sortStrings, List.mem_dedup, List.mem_flatMap]

/-- Witness for the C4 theorem: two adapters; `Application/JSON`
canonicalizes to `application/json`, which the first adapter advertises. -/
theorem serveHTTP_protocol_selection_witness :
    ¬(exampleHandler.spec.StreamType &&& StreamTypeBidi = StreamTypeBidi ∧
        examplePostRequest.protoMajor < 2) ∧
      examplePostRequest.method = MethodPost ∧
      ((exampleHandler.protocolHandlers.find?
          (fun x => x.contentTypes.contains
            (canonicalizeContentType examplePostRequest.contentType))
        = some phConnect →
        (ServeHTTP exampleHandler examplePostRequest).selected = some phConnect ∧
          phConnect.contentTypes.contains
            (canonicalizeContentType examplePostRequest.contentType) = true ∧
          (∃ pre post, exampleHandler.protocolHandlers = pre ++ phConnect :: post ∧
            ∀ x ∈ pre,
              x.contentTypes.contains
                (canonicalizeContentType examplePostRequest.contentType) = false) ∧
          (ServeHTTP exampleHandler examplePostRequest).finalContentType
            = canonicalizeContentType examplePostRequest.contentType) ∧
      (exampleHandler.protocolHandlers.find?
          (fun x => x.contentTypes.contains
            (canonicalizeContentType examplePostRequest.contentType))
        = none →
        (ServeHTTP exampleHandler examplePostRequest).status = some 415 ∧
          (ServeHTTP exampleHandler examplePostRequest).acceptPostHeader
            = some exampleHandler.acceptPost ∧
          (ServeHTTP exampleHandler examplePostRequest).selected = none) ∧
      (newHandler exampleSpec constNormalImpl [phConnect, phGRPC]).acceptPost
          = String.intercalate ", "
            (sortStrings
              (([phConnect, phGRPC].flatMap (fun x => x.contentTypes)).dedup)) ∧
      (sortStrings
          (([phConnect, phGRPC].flatMap (fun x => x.contentTypes)).dedup)).Sorted
        (· ≤ ·) ∧
      ("application/grpc"
          ∈ sortStrings (([phConnect, phGRPC].flatMap (fun x => x.contentTypes)).dedup) ↔
        ∃ x ∈ [phConnect, phGRPC], "application/grpc" ∈ x.contentTypes)) :=
  ⟨by decide, rfl,
    serveHTTP_protocol_selection exampleHandler examplePostRequest phConnect
      exampleSpec constNormalImpl [phConnect, phGRPC] "application/grpc"
      (by decide) rfl⟩

/-- C8 (counterexample): with an already-cancelled context and a
configured interceptor, the interceptor's wrapper code *does* run — the
`ctx.Err()` check lives inside the innermost untyped adapter, which the
interceptor wraps — refuting "with an already-cancelled context neither
the interceptor nor the user function runs".  (The user function indeed
does not run, and the pipeline returns the context's error.) -/
theorem unary_interceptor_runs_on_cancelled_ctx :
    (wrapIfConfigured (some markingInterceptor) (untypedUnaryAdapter constOkUnary)
        cancelledCtx (.typed (NewRequest 0))).2 = [Ev.interceptorRan] ∧
      ¬((wrapIfConfigured (some markingInterceptor) (untypedUnaryAdapter constOkUnary)
          cancelledCtx (.typed (NewRequest 0))).2 = []) ∧
      Ev.userRan ∉ (wrapIfConfigured (some markingInterceptor) (untypedUnaryAdapter constOkUnary)
          cancelledCtx (.typed (NewRequest 0))).2 ∧
      (wrapIfConfigured (some markingInterceptor) (untypedUnaryAdapter constOkUnary)
          cancelledCtx (.typed (NewRequest 0))).1
        = .error (.errorString "context canceled") := by
  refine ⟨rfl, by decide, by decide, rfl⟩

/-- C8 (amended): in `NewUnaryHandler`, the untyped unary adapter is
wrapped by the interceptor's unary variant when one is configured (and
used bare otherwise); the context-cancellation check sits *inside* that
innermost adapter, before the defensive type assertion — so with an
already-cancelled context the adapter returns the context's error and the
user function does not run (though a configured interceptor's wrapper code
does, since it wraps the adapter from outside); with a live context, a
non-`*Request[Req]` envelope yields an `Internal`-coded error without
calling the user function, and the genuine envelope reaches the user
function. -/
theorem unary_adapter_behavior {Req Res : Type}
    (unary : Context → Request Req → Except GoErr (Response Res))
    (ic : UnaryFn Req Res → UnaryFn Req Res)
    (ctx : Context) (e : GoErr) (r : Request Req) :
    wrapIfConfigured (some ic) (untypedUnaryAdapter unary) = ic (untypedUnaryAdapter unary) ∧
    wrapIfConfigured none (untypedUnaryAdapter unary) = untypedUnaryAdapter unary ∧
    (ctx.err = some e →
      untypedUnaryAdapter unary ctx (.typed r) = (.error e, []) ∧
        untypedUnaryAdapter unary ctx .other = (.error e, [])) ∧
    (ctx.err = none →
      untypedUnaryAdapter unary ctx .other
          = (.error (NewError .internal (.errorString "unexpected handler request type")), []) ∧
        (NewError .internal (.errorString "unexpected handler request type")).code?
          = some .internal ∧
        untypedUnaryAdapter unary ctx (.typed r) = (unary ctx r, [Ev.userRan])) := by
  refine ⟨rfl, rfl, ?_, ?_⟩
  · intro hc
    exact ⟨by simp [untypedUnaryAdapter, hc], by simp [untypedUnaryAdapter, hc]⟩
  · intro hc
    exact ⟨by simp [untypedUnaryAdapter, hc], rfl, by simp [untypedUnaryAdapter, hc]⟩

/-- Witness for the amended C8 theorem at a cancelled context. -/
theorem unary_adapter_behavior_witness :
    wrapIfConfigured (some markingInterceptor) (untypedUnaryAdapter constOkUnary)
        = markingInterceptor (untypedUnaryAdapter constOkUnary) ∧
      wrapIfConfigured none (untypedUnaryAdapter constOkUnary)
        = untypedUnaryAdapter constOkUnary ∧
      (cancelledCtx.err = some (.errorString "context canceled") →
        untypedUnaryAdapter constOkUnary cancelledCtx (.typed (NewRequest 5))
            = (.error (.errorString "context canceled"), []) ∧
          untypedUnaryAdapter constOkUnary cancelledCtx .other
            = (.error (.errorString "context canceled"), [])) ∧
      (cancelledCtx.err = none →
        untypedUnaryAdapter constOkUnary cancelledCtx .other
            = (.error (NewError .internal
                (.errorString "unexpected handler request type")), []) ∧
          (NewError .internal
            (.errorString "unexpected handler request type")).code? = some .internal ∧
          untypedUnaryAdapter constOkUnary cancelledCtx (.typed (NewRequest 5))
            = (constOkUnary cancelledCtx (NewRequest 5), [Ev.userRan])) :=
  unary_adapter_behavior constOkUnary markingInterceptor cancelledCtx
    (.errorString "context canceled") (NewRequest 5)

end ConnectVerify
